import Mathlib

/-!
Verification of the order-book price-level aggregation component and the
Betfair navigation-tree parsing routines of this repository.

The Level/Order implementation (`nautilus_trader/model/orderbook/level.py`
and `order.py`) is not among the provided source files; only its unit tests
are.  Those entities are therefore modelled from the specification (sections
3, 4 and 7), as marked in the doc comments below.  The functions of
`nautilus_trader/adapters/betfair/parsing.py` are embedded directly from the
source.
-/

namespace OrderBook

/-- Modelled from the spec: order side, "buy or sell" (spec section 3). -/
inductive OrderSide where
  | buy
  | sell
deriving DecidableEq

/-- Modelled from the spec: the two error kinds of section 7,
`InvalidQuantity` and `OrderNotFound`. -/
inductive BookError where
  | invalidQuantity
  | orderNotFound
deriving DecidableEq

/-- Modelled from the spec: an Order (spec section 3) with `price`, mutable
`volume`, `side` and an optional externally assigned `id`.  The spec says
that when ids are absent, object identity (not value equality) determines
matching; object identity is modelled by the reference tag `ref`, unique per
constructed Order and preserved by volume updates. -/
structure Order where
  price : Int
  volume : Int
  side : OrderSide
  id : Option String
  ref : Nat
deriving DecidableEq

/-- Modelled from the spec: `Construct(price, volume, side, id=optional)`
fails with `InvalidQuantity` when `volume < 0` (spec section 4.1); in the
pure model a failure returns no Order, so no state is created. -/
def Order.create (price volume : Int) (side : OrderSide) (id : Option String)
    (ref : Nat) : Except BookError Order :=
  if volume < 0 then Except.error BookError.invalidQuantity
  else Except.ok ⟨price, volume, side, id, ref⟩

/-- Modelled from the spec: `UpdateVolume(new_volume)` replaces `volume` in
place; `new_volume < 0` fails with `InvalidQuantity`; `new_volume == 0` is
accepted (spec section 4.1).  A failure returns no new Order, so the
Order (and any owning Level) is unchanged. -/
def Order.updateVolume (o : Order) (newVolume : Int) : Except BookError Order :=
  if newVolume < 0 then Except.error BookError.invalidQuantity
  else Except.ok { o with volume := newVolume }

/-- Modelled from the spec: "two Orders are the same resting interest iff
their `id` matches (when ids are used); when ids are absent, object identity
determines which occurrence is removed" (spec section 4.1).  Object identity
is the `ref` tag. -/
def sameIdentity (a b : Order) : Bool :=
  match a.id, b.id with
  | some x, some y => x == y
  | _, _ => a.ref == b.ref

/-- Modelled from the spec: a Level holds an ordered sequence of Orders,
insertion order being the priority ordering (spec section 3). -/
structure Level where
  orders : List Order
deriving DecidableEq

/-- Modelled from the spec: `Construct(orders = empty)` seeds a Level with
the given orders (spec section 4.2). -/
def Level.init (orders : List Order) : Level := ⟨orders⟩

/-- A Level constructed with no orders. -/
def Level.empty : Level := ⟨[]⟩

/-- Sum of the volumes of a list of Orders. -/
def sumVolumes (os : List Order) : Int := (os.map Order.volume).sum

/-- Modelled from the spec: `Volume()` returns the sum of `volume` over all
current Orders (spec section 4.2). -/
def Level.volume (l : Level) : Int := sumVolumes l.orders

/-- Modelled from the spec: `OrderCount()`, the number of resting Orders. -/
def Level.orderCount (l : Level) : Nat := l.orders.length

/-- Modelled from the spec: `IsEmpty()` is true iff the count is zero. -/
def Level.isEmpty (l : Level) : Bool := l.orders.isEmpty

/-- Modelled from the spec: `Add(order)` appends the order to the end of the
sequence; no error condition (spec section 4.2). -/
def Level.add (l : Level) (o : Order) : Level := ⟨l.orders ++ [o]⟩

/-- Replace the volume of the first Order matching `o`'s identity, keeping
its position and every other Order unchanged. -/
def updateFirst (o : Order) : List Order → List Order
  | [] => []
  | x :: xs =>
    if sameIdentity o x then { x with volume := o.volume } :: xs
    else x :: updateFirst o xs

/-- Remove the first Order matching `o`'s identity from the sequence. -/
def deleteFirst (o : Order) : List Order → List Order
  | [] => []
  | x :: xs => if sameIdentity o x then xs else x :: deleteFirst o xs

/-- Whether the Level holds an Order matching `o`'s identity. -/
def Level.containsId (l : Level) (o : Order) : Bool :=
  l.orders.any (fun x => sameIdentity o x)

/-- Modelled from the spec: `Update(order)` locates the existing Order
matching `order`'s identity and replaces its volume with `order.volume`,
preserving its position; fails with `OrderNotFound` if no matching Order is
present (spec section 4.2). -/
def Level.update (l : Level) (o : Order) : Except BookError Level :=
  if l.containsId o then Except.ok ⟨updateFirst o l.orders⟩
  else Except.error BookError.orderNotFound

/-- Modelled from the spec: `Delete(order)` removes the matching Order from
the sequence by identity; fails with `OrderNotFound` if no matching Order is
present (spec section 4.2). -/
def Level.delete (l : Level) (o : Order) : Except BookError Level :=
  if l.containsId o then Except.ok ⟨deleteFirst o l.orders⟩
  else Except.error BookError.orderNotFound

/-- A mutation call on a Level: Add, Update or Delete. -/
inductive Op where
  | add (o : Order)
  | update (o : Order)
  | delete (o : Order)

/-- Apply one call; a rejected Update/Delete leaves the Level unchanged
(spec section 7: errors are "rejected, Level state unchanged"). -/
def applyOp (l : Level) : Op → Level
  | Op.add o => l.add o
  | Op.update o =>
    match l.update o with
    | Except.ok l2 => l2
    | Except.error _ => l
  | Op.delete o =>
    match l.delete o with
    | Except.ok l2 => l2
    | Except.error _ => l

/-- Apply a finite sequence of calls in order. -/
def applyOps (l : Level) (ops : List Op) : Level := ops.foldl applyOp l

/-- Add a list of orders in sequence. -/
def addAll (l : Level) (os : List Order) : Level := os.foldl Level.add l

/-- A buy order of volume 100 at price 10 with no id, as in `test_update`. -/
def orderA : Order := ⟨10, 100, OrderSide.buy, none, 0⟩

/-- The same resting interest as `orderA` after `UpdateVolume(50)`. -/
def orderA50 : Order := { orderA with volume := 50 }

/-- A buy order of volume 50 at price 100 with id "1", as in
`test_delete_order`. -/
def orderB1 : Order := ⟨100, 50, OrderSide.buy, some "1", 1⟩

/-- A buy order of volume 50 at price 100 with id "2", as in
`test_delete_order`. -/
def orderB2 : Order := ⟨100, 50, OrderSide.buy, some "2", 2⟩

/-- The order `orderB2` amended to volume 20. -/
def orderB2amend : Order := { orderB2 with volume := 20 }

/-- A buy order of volume 0 at price 10, as in `test_zero_volume_level`. -/
def orderZ : Order := ⟨10, 0, OrderSide.buy, none, 3⟩

end OrderBook

namespace BetfairParsing

/-- A Python exception as raised by the parsing routines: a `KeyError` for a
missing dictionary key, or the `TypeError` raised when a dict display
unpacks a non-mapping. -/
inductive PyError where
  | keyError (key : String)
  | typeError
deriving DecidableEq

/-- A node of the Betfair navigation tree: a Python dict whose scalar
entries (such as "name" and "type") are in `attrs`, and whose "children"
entry, when the key is present, is a list of nodes.  `children = none`
models a dict without a "children" key. -/
inductive NavNode where
  | node (attrs : List (String × String)) (children : Option (List NavNode))

/-- The scalar entries of the node's dict. -/
def NavNode.attrs : NavNode → List (String × String)
  | NavNode.node a _ => a

/-- The "children" entry of the node's dict, `none` when the key is absent. -/
def NavNode.children : NavNode → Option (List NavNode)
  | NavNode.node _ c => c

/-- Embeds `flatten_tree(dict_like, **filters)` forced by `list(...)`.
The body first evaluates `dict_like["name"].lower()` (a `KeyError` when the
key is missing), builds `data` from the non-ignored entries, then iterates
`dict_like.get("children", [])`.  On the first child it evaluates
`\x7b**data, **flatten_tree(child, **filters)\x7d`: the recursive call only
creates a generator, and unpacking a generator in a dict display raises
`TypeError`, so a node with a non-empty children list always fails there and
the recursion never runs.  The `filters` argument is bound but never read. -/
def flatten_tree (dict_like : NavNode) (filters : List (String × String)) :
    Except PyError (List (List (String × String))) :=
  match dict_like.attrs.lookup "name" with
  | none => Except.error (PyError.keyError "name")
  | some nm =>
    let node_type := nm.toLower
    let _data := dict_like.attrs.filterMap fun kv =>
      if kv.1 == "type" then none else some (node_type ++ "_" ++ kv.1, kv.2)
    match dict_like.children with
    | none => Except.ok []
    | some [] => Except.ok []
    | some (_ :: _) => Except.error PyError.typeError

/-- The client: all `load_markets` uses of it is
`client.navigation.list_navigation()`, modelled as the returned tree. -/
structure Client where
  navigation : NavNode

/-- Embeds `load_markets(client, filter=None)`: it fetches the navigation
tree and forces `flatten_tree` on it with the given keyword filters; a falsy
filter — `None` or the empty dict — becomes the empty dict. -/
def load_markets (client : Client) (filter : Option (List (String × String))) :
    Except PyError (List (List (String × String))) :=
  flatten_tree client.navigation (filter.getD [])

/-- Embeds the loop body of `filter_type` over a list of children, forced by
`list(...)`: a child whose `"type"` equals `filter_value` is yielded and its
subtree is not searched; otherwise, when the child has a "children" key, the
generator recurses into it (`yield from`) before moving to later siblings; a
child without a "type" key raises `KeyError` at `child["type"]`. -/
def filter_type_go (filter_value : String) : List NavNode → Except PyError (List NavNode)
  | [] => Except.ok []
  | NavNode.node attrs children :: cs =>
    match attrs.lookup "type" with
    | none => Except.error (PyError.keyError "type")
    | some t =>
      if t == filter_value then
        match filter_type_go filter_value cs with
        | Except.error e => Except.error e
        | Except.ok rest => Except.ok (NavNode.node attrs children :: rest)
      else
        match children with
        | some gs =>
          match filter_type_go filter_value gs with
          | Except.error e => Except.error e
          | Except.ok sub =>
            match filter_type_go filter_value cs with
            | Except.error e => Except.error e
            | Except.ok rest => Except.ok (sub ++ rest)
        | none => filter_type_go filter_value cs

/-- Embeds `filter_type(root, filter_value)` forced by `list(...)`: it
iterates `root["children"]` (a `KeyError` when the root has no such key) and
applies the loop body to the children. -/
def filter_type (root : NavNode) (filter_value : String) :
    Except PyError (List NavNode) :=
  match root.children with
  | none => Except.error (PyError.keyError "children")
  | some cs => filter_type_go filter_value cs

/-- Stated from the claim's words, to be compared with `filter_type`: in
depth-first order, the descendant nodes whose "type" equals `filter_value`
reachable without passing through another node of that type — a matching
child is taken and its subtree is never searched; a non-matching child
without children contributes nothing. -/
def filterTypeSpec (filter_value : String) : List NavNode → List NavNode
  | [] => []
  | NavNode.node attrs children :: cs =>
    if attrs.lookup "type" == some filter_value then
      NavNode.node attrs children :: filterTypeSpec filter_value cs
    else
      (match children with
       | some gs => filterTypeSpec filter_value gs
       | none => []) ++ filterTypeSpec filter_value cs

/-- Every node of the forest carries a "type" entry (as every node of the
Betfair navigation tree does). -/
def allTyped : List NavNode → Bool
  | [] => true
  | NavNode.node attrs children :: cs =>
    (attrs.lookup "type").isSome &&
      (match children with
       | some gs => allTyped gs
       | none => true) && allTyped cs

/-- A leaf of type EVENT under the matching node `navA`: it must not be
yielded, its parent is. -/
def navC : NavNode := NavNode.node [("type", "EVENT"), ("name", "c")] none

/-- A leaf of type EVENT under the non-matching node `navB`. -/
def navD : NavNode := NavNode.node [("type", "EVENT"), ("name", "d")] none

/-- A child of the root whose type is EVENT and that has a subtree. -/
def navA : NavNode := NavNode.node [("type", "EVENT"), ("name", "a")] (some [navC])

/-- A child of the root whose type is GROUP, with one EVENT child. -/
def navB : NavNode := NavNode.node [("type", "GROUP"), ("name", "b")] (some [navD])

/-- A small navigation tree: the root has children `navA` and `navB`. -/
def navRoot : NavNode := NavNode.node [("name", "ROOT")] (some [navA, navB])

/-- A navigation tree whose root has an empty children list, on which
`flatten_tree` yields nothing. -/
def navLeafRoot : NavNode := NavNode.node [("name", "ROOT")] (some [])

end BetfairParsing


namespace OrderBook

namespace Facts

lemma sumVolumes_append (xs ys : List Order) :
    sumVolumes (xs ++ ys) = sumVolumes xs + sumVolumes ys := by
  simp [sumVolumes]

lemma sumVolumes_cons (x : Order) (xs : List Order) :
    sumVolumes (x :: xs) = x.volume + sumVolumes xs := by
  simp [sumVolumes]

lemma addAll_volume (os : List Order) : ∀ l : Level,
    (addAll l os).volume = l.volume + sumVolumes os := by
  induction os with
  | nil => intro l; simp [addAll, sumVolumes]
  | cons o os ih =>
    intro l
    have h1 : addAll l (o :: os) = addAll (l.add o) os := rfl
    rw [h1, ih]
    simp [Level.add, Level.volume, sumVolumes_append, sumVolumes_cons, sumVolumes]
    ring

lemma any_of_find?_some {p : Order → Bool} {xs : List Order} {a : Order}
    (h : xs.find? p = some a) : xs.any p = true :=
  List.any_eq_true.mpr ⟨a, List.mem_of_find?_eq_some h, List.find?_some h⟩

lemma updateFirst_length (o : Order) : ∀ xs : List Order,
    (updateFirst o xs).length = xs.length := by
  intro xs
  induction xs with
  | nil => rfl
  | cons x xs ih =>
    by_cases hx : sameIdentity o x = true
    · simp [updateFirst, hx]
    · simp [updateFirst, hx, ih]

lemma updateFirst_sum (o old : Order) : ∀ xs : List Order,
    xs.find? (fun x => sameIdentity o x) = some old →
    sumVolumes (updateFirst o xs) = sumVolumes xs + (o.volume - old.volume) := by
  intro xs
  induction xs with
  | nil => intro h; simp [List.find?] at h
  | cons x xs ih =>
    intro h
    by_cases hx : sameIdentity o x = true
    · rw [List.find?_cons_of_pos _ hx] at h
      injection h with h
      subst h
      simp [updateFirst, hx, sumVolumes_cons]
      ring
    · rw [List.find?_cons_of_neg _ (by simp [hx])] at h
      have h2 := ih h
      simp [updateFirst, hx, sumVolumes_cons, h2]
      ring

lemma updateFirst_split (o old : Order) (suf : List Order)
    (hmatch : sameIdentity o old = true) : ∀ pre : List Order,
    (∀ x ∈ pre, sameIdentity o x = false) →
    updateFirst o (pre ++ old :: suf) = pre ++ { old with volume := o.volume } :: suf := by
  intro pre
  induction pre with
  | nil => intro _; simp [updateFirst, hmatch]
  | cons x pre ih =>
    intro hpre
    have hx : sameIdentity o x = false := hpre x (by simp)
    have h2 := ih (fun y hy => hpre y (by simp [hy]))
    simp [updateFirst, hx, h2]

lemma deleteFirst_split (o old : Order) (suf : List Order)
    (hmatch : sameIdentity o old = true) : ∀ pre : List Order,
    (∀ x ∈ pre, sameIdentity o x = false) →
    deleteFirst o (pre ++ old :: suf) = pre ++ suf := by
  intro pre
  induction pre with
  | nil => intro _; simp [deleteFirst, hmatch]
  | cons x pre ih =>
    intro hpre
    have hx : sameIdentity o x = false := hpre x (by simp)
    have h2 := ih (fun y hy => hpre y (by simp [hy]))
    simp [deleteFirst, hx, h2]

lemma containsId_of_split (l : Level) (o old : Order) (pre suf : List Order)
    (hsplit : l.orders = pre ++ old :: suf)
    (hmatch : sameIdentity o old = true) : l.containsId o = true := by
  unfold Level.containsId
  rw [hsplit]
  exact List.any_eq_true.mpr ⟨old, by simp, hmatch⟩

lemma countP_deleteFirst (o : Order) : ∀ xs : List Order,
    xs.any (fun x => sameIdentity o x) = true →
    (deleteFirst o xs).countP (fun x => sameIdentity o x) =
      xs.countP (fun x => sameIdentity o x) - 1 := by
  intro xs
  induction xs with
  | nil => intro h; simp at h
  | cons x xs ih =>
    intro h
    by_cases hx : sameIdentity o x = true
    · simp [deleteFirst, hx, List.countP_cons]
    · have h2 : xs.any (fun x => sameIdentity o x) = true := by
        simp [hx] at h
        exact List.any_eq_true.mpr h
      simp [deleteFirst, hx, List.countP_cons, ih h2]

lemma exists_first_match (p : Order → Bool) : ∀ xs : List Order,
    xs.any p = true →
    ∃ pre x suf, xs = pre ++ x :: suf ∧ p x = true ∧ ∀ y ∈ pre, p y = false := by
  intro xs
  induction xs with
  | nil => intro h; simp at h
  | cons x xs ih =>
    intro h
    by_cases hx : p x = true
    · exact ⟨[], x, xs, rfl, hx, by simp⟩
    · have h2 : xs.any p = true := by
        simp [hx] at h
        exact List.any_eq_true.mpr h
      obtain ⟨pre, z, suf, hsplit, hz, hpre⟩ := ih h2
      refine ⟨x :: pre, z, suf, by simp [hsplit], hz, ?_⟩
      intro y hy
      rcases List.mem_cons.mp hy with hy | hy
      · simpa [hy] using hx
      · exact hpre y hy

end Facts

end OrderBook

namespace OrderBook

/-- C1: for every Level and every finite sequence of Add, Update and Delete
operations, `Volume()` equals the sum of `volume` over all Orders currently
held (zero-volume Orders contributing zero, since they add zero to the sum);
after any sequence of Add operations on an initially empty Level, `Volume()`
equals the sum of the added orders' volumes; and a Level holding zero Orders
has `Volume()` equal to zero. -/
theorem volume_eq_sum_of_orders :
    (∀ (l : Level) (ops : List Op),
      (applyOps l ops).volume = sumVolumes (applyOps l ops).orders) ∧
    (∀ os : List Order, (addAll Level.empty os).volume = sumVolumes os) ∧
    Level.empty.volume = 0 := by
  refine ⟨fun l ops => rfl, ?_, rfl⟩
  intro os
  rw [Facts.addAll_volume os Level.empty]
  simp [Level.empty, Level.volume, sumVolumes]

/-- C2: when a Level contains an Order matching the argument's identity (the
first such match being `old`), `Update` succeeds and changes `Volume()` by
exactly the argument's volume minus the matched Order's previous volume,
leaving `OrderCount()` unchanged. -/
theorem update_changes_volume_by_delta (l : Level) (o old : Order)
    (h : l.orders.find? (fun x => sameIdentity o x) = some old) :
    ∃ l2, l.update o = Except.ok l2 ∧
      l2.volume = l.volume + (o.volume - old.volume) ∧
      l2.orderCount = l.orderCount := by
  have hc : l.containsId o = true := Facts.any_of_find?_some h
  refine ⟨⟨updateFirst o l.orders⟩, ?_, ?_, ?_⟩
  · simp [Level.update, hc]
  · exact Facts.updateFirst_sum o old l.orders h
  · exact Facts.updateFirst_length o l.orders

/-- C2 witness: adding one order of volume 100 to an empty Level and then
updating it to volume 50 yields `Volume() == 50`. -/
theorem update_changes_volume_by_delta_witness :
    (∃ l2, (Level.init [orderA]).update orderA50 = Except.ok l2 ∧
      l2.volume = (Level.init [orderA]).volume + (orderA50.volume - orderA.volume) ∧
      l2.orderCount = (Level.init [orderA]).orderCount) ∧
    (Level.init [orderA]).volume + (orderA50.volume - orderA.volume) = 50 :=
  ⟨update_changes_volume_by_delta (Level.init [orderA]) orderA50 orderA (by decide),
   by decide⟩

/-- C3: when a Level's sequence decomposes as `pre ++ old :: suf` with `old`
the first Order matching the argument's identity, `Delete` removes exactly
that one Order, decreases `Volume()` by its volume and `OrderCount()` by
one. -/
theorem delete_removes_exactly_one (l : Level) (o old : Order)
    (pre suf : List Order)
    (hsplit : l.orders = pre ++ old :: suf)
    (hpre : ∀ x ∈ pre, sameIdentity o x = false)
    (hmatch : sameIdentity o old = true) :
    l.delete o = Except.ok (Level.init (pre ++ suf)) ∧
    (Level.init (pre ++ suf)).volume = l.volume - old.volume ∧
    (Level.init (pre ++ suf)).orderCount = l.orderCount - 1 := by
  have hc : l.containsId o = true := Facts.containsId_of_split l o old pre suf hsplit hmatch
  refine ⟨?_, ?_, ?_⟩
  · simp [Level.delete, hc, Level.init]
    rw [hsplit, Facts.deleteFirst_split o old suf hmatch pre hpre]
  · simp [Level.init, Level.volume, hsplit, Facts.sumVolumes_append,
      Facts.sumVolumes_cons]
    ring
  · simp [Level.init, Level.orderCount, hsplit]

/-- C3 witness: two resting orders of volume 50 each with ids "1" and "2";
deleting id "2" leaves `Volume() == 50` and `OrderCount() == 1`. -/
theorem delete_removes_exactly_one_witness :
    ((Level.init [orderB1, orderB2]).delete orderB2 =
        Except.ok (Level.init ([orderB1] ++ [])) ∧
      (Level.init ([orderB1] ++ [])).volume = (Level.init [orderB1, orderB2]).volume - orderB2.volume ∧
      (Level.init ([orderB1] ++ [])).orderCount = (Level.init [orderB1, orderB2]).orderCount - 1) ∧
    (Level.init ([orderB1] ++ [])).volume = 50 ∧
    (Level.init ([orderB1] ++ [])).orderCount = 1 :=
  ⟨delete_removes_exactly_one (Level.init [orderB1, orderB2]) orderB2 orderB2
      [orderB1] [] rfl (by decide) (by decide),
   by decide, by decide⟩

/-- C4: Update or Delete with an Order whose identity is not present fails
with `OrderNotFound` and leaves the Level unchanged; and after a successful
Delete of the only Order of a given identity, a second Delete of that
identity fails with `OrderNotFound`. -/
theorem missing_identity_rejected (l : Level) (o : Order) :
    (l.containsId o = false →
      l.update o = Except.error BookError.orderNotFound ∧
      l.delete o = Except.error BookError.orderNotFound ∧
      applyOp l (Op.update o) = l ∧ applyOp l (Op.delete o) = l) ∧
    (l.orders.countP (fun x => sameIdentity o x) = 1 →
      ∃ l2, l.delete o = Except.ok l2 ∧
        l2.delete o = Except.error BookError.orderNotFound) := by
  constructor
  · intro h
    refine ⟨?_, ?_, ?_, ?_⟩ <;>
      simp [Level.update, Level.delete, applyOp, h]
  · intro h
    have hany : l.orders.any (fun x => sameIdentity o x) = true := by
      have hpos : 0 < l.orders.countP (fun x => sameIdentity o x) := by omega
      obtain ⟨a, ha, hpa⟩ := List.countP_pos_iff.mp hpos
      exact List.any_eq_true.mpr ⟨a, ha, hpa⟩
    refine ⟨⟨deleteFirst o l.orders⟩, by simp [Level.delete, Level.containsId, hany], ?_⟩
    have hcount := Facts.countP_deleteFirst o l.orders hany
    rw [h] at hcount
    have hnone : (deleteFirst o l.orders).any (fun x => sameIdentity o x) = false := by
      by_contra hcontra
      have h2 : (deleteFirst o l.orders).any (fun x => sameIdentity o x) = true := by
        revert hcontra
        cases (deleteFirst o l.orders).any (fun x => sameIdentity o x) <;> simp
      obtain ⟨a, ha, hpa⟩ := List.any_eq_true.mp h2
      have h3 : 0 < (deleteFirst o l.orders).countP (fun x => sameIdentity o x) :=
        List.countP_pos_iff.mpr ⟨a, ha, hpa⟩
      omega
    simp [Level.delete, Level.containsId, hnone]

/-- C4 witness: an empty Level rejects Update and Delete of an absent
identity; deleting the only order of id "2" and then deleting it again fails
with `OrderNotFound`. -/
theorem missing_identity_rejected_witness :
    (Level.empty.update orderB1 = Except.error BookError.orderNotFound ∧
      Level.empty.delete orderB1 = Except.error BookError.orderNotFound ∧
      applyOp Level.empty (Op.update orderB1) = Level.empty ∧
      applyOp Level.empty (Op.delete orderB1) = Level.empty) ∧
    (∃ l2, (Level.init [orderB2]).delete orderB2 = Except.ok l2 ∧
      l2.delete orderB2 = Except.error BookError.orderNotFound) :=
  ⟨(missing_identity_rejected Level.empty orderB1).1 (by decide),
   (missing_identity_rejected (Level.init [orderB2]) orderB2).2 (by decide)⟩

/-- C5: constructing an Order with negative volume, or updating to a
negative volume, fails with `InvalidQuantity` (no Order is produced, so
nothing is mutated), while volume 0 is accepted by both; in particular
volume -1 is rejected at construction. -/
theorem negative_volume_rejected (p v : Int) (s : OrderSide)
    (i : Option String) (r : Nat) (o : Order) :
    (v < 0 →
      Order.create p v s i r = Except.error BookError.invalidQuantity ∧
      o.updateVolume v = Except.error BookError.invalidQuantity) ∧
    Order.create p 0 s i r = Except.ok ⟨p, 0, s, i, r⟩ ∧
    o.updateVolume 0 = Except.ok { o with volume := 0 } ∧
    Order.create p (-1) s i r = Except.error BookError.invalidQuantity := by
  refine ⟨fun hv => ⟨?_, ?_⟩, ?_, ?_, ?_⟩ <;>
    simp [Order.create, Order.updateVolume] <;> omega

/-- C5 witness: constructing a buy order of volume -1 at price 10 fails with
`InvalidQuantity`, and volume 0 is accepted. -/
theorem negative_volume_rejected_witness :
    (Order.create 10 (-1) OrderSide.buy none 7 = Except.error BookError.invalidQuantity ∧
      orderA.updateVolume (-1) = Except.error BookError.invalidQuantity) ∧
    Order.create 10 0 OrderSide.buy none 7 = Except.ok ⟨10, 0, OrderSide.buy, none, 7⟩ :=
  ⟨(negative_volume_rejected 10 (-1) OrderSide.buy none 7 orderA).1 (by decide),
   (negative_volume_rejected 10 0 OrderSide.buy none 7 orderA).2.1⟩

/-- C6: a Level constructed with a single Order of volume 0 has
`Volume() == 0`, `OrderCount() == 1` and is not `IsEmpty()`. -/
theorem zero_volume_order_counted (o : Order) (h : o.volume = 0) :
    (Level.init [o]).volume = 0 ∧ (Level.init [o]).orderCount = 1 ∧
    (Level.init [o]).isEmpty = false := by
  refine ⟨?_, rfl, rfl⟩
  simp [Level.init, Level.volume, sumVolumes, h]

/-- C6 witness: the concrete zero-volume buy order at price 10. -/
theorem zero_volume_order_counted_witness :
    (Level.init [orderZ]).volume = 0 ∧ (Level.init [orderZ]).orderCount = 1 ∧
    (Level.init [orderZ]).isEmpty = false :=
  zero_volume_order_counted orderZ (by decide)

/-- C7: applying the same ordered sequence of Add/Update/Delete calls to two
independently constructed empty Levels produces identical final `Volume()`,
`OrderCount()` and order sequence: in this model the outcome is a function
of the call sequence alone. -/
theorem apply_ops_deterministic (ops : List Op) :
    (applyOps (Level.init []) ops).volume = (applyOps Level.empty ops).volume ∧
    (applyOps (Level.init []) ops).orderCount = (applyOps Level.empty ops).orderCount ∧
    (applyOps (Level.init []) ops).orders = (applyOps Level.empty ops).orders :=
  ⟨rfl, rfl, rfl⟩

/-- C8: when the Level's sequence decomposes as `pre ++ old :: suf` with
`old` the first Order matching the argument's identity, a successful Update
replaces only that Order's volume in place: the matched Order keeps its
position and every other Order, and the ordering, is unchanged. -/
theorem update_preserves_positions (l : Level) (o old : Order)
    (pre suf : List Order)
    (hsplit : l.orders = pre ++ old :: suf)
    (hpre : ∀ x ∈ pre, sameIdentity o x = false)
    (hmatch : sameIdentity o old = true) :
    l.update o = Except.ok (Level.init (pre ++ { old with volume := o.volume } :: suf)) := by
  have hc : l.containsId o = true := Facts.containsId_of_split l o old pre suf hsplit hmatch
  simp [Level.update, hc, Level.init]
  rw [hsplit, Facts.updateFirst_split o old suf hmatch pre hpre]

/-- C8 witness: amending the volume of the second of two orders keeps it in
second position and leaves the first order untouched. -/
theorem update_preserves_positions_witness :
    (Level.init [orderB1, orderB2]).update orderB2amend =
      Except.ok (Level.init ([orderB1] ++ { orderB2 with volume := orderB2amend.volume } :: [])) :=
  update_preserves_positions (Level.init [orderB1, orderB2]) orderB2amend orderB2
    [orderB1] [] rfl (by decide) (by decide)

end OrderBook

namespace BetfairParsing

namespace Facts

lemma filter_type_go_eq_spec (v : String) : ∀ xs : List NavNode,
    allTyped xs = true →
    filter_type_go v xs = Except.ok (filterTypeSpec v xs) := by
  intro xs
  induction xs using allTyped.induct with
  | case1 => intro _; simp [filter_type_go, filterTypeSpec]
  | case2 attrs children cs ih1 ih2 =>
    intro ht
    cases children with
    | none =>
      simp only [allTyped, Bool.and_eq_true] at ht
      obtain ⟨hty, hcs⟩ := ht
      cases hl : attrs.lookup "type" with
      | none => rw [hl] at hty; simp at hty
      | some t =>
        by_cases htv : t = v
        · subst htv
          simp [filter_type_go, filterTypeSpec, hl, ih2 hcs]
        · have hbeq : (t == v) = false := beq_eq_false_iff_ne.mpr htv
          have hbeq2 : ((some t : Option String) == some v) = false :=
            beq_eq_false_iff_ne.mpr (fun h => htv (Option.some.inj h))
          simp [filter_type_go, filterTypeSpec, hl, hbeq, hbeq2, ih2 hcs]
    | some gs =>
      have ihg : allTyped gs = true →
          filter_type_go v gs = Except.ok (filterTypeSpec v gs) := ih1
      simp only [allTyped, Bool.and_eq_true] at ht
      obtain ⟨⟨hty, hgs⟩, hcs⟩ := ht
      cases hl : attrs.lookup "type" with
      | none => rw [hl] at hty; simp at hty
      | some t =>
        by_cases htv : t = v
        · subst htv
          simp [filter_type_go, filterTypeSpec, hl, ih2 hcs]
        · have hbeq : (t == v) = false := beq_eq_false_iff_ne.mpr htv
          have hbeq2 : ((some t : Option String) == some v) = false :=
            beq_eq_false_iff_ne.mpr (fun h => htv (Option.some.inj h))
          simp [filter_type_go, filterTypeSpec, hl, hbeq, hbeq2, ihg hgs, ih2 hcs]

end Facts

/-- C9: for a fixed navigation tree, `load_markets` with any filter
dictionary produces exactly the same outcome as with `None`: the keyword
filters are bound by `flatten_tree` but never read on any path, so they
cannot influence the returned list (nor the raised error). -/
theorem load_markets_ignores_filter (c : Client)
    (f : Option (List (String × String))) :
    load_markets c f = load_markets c none := rfl

/-- C10: on a navigation tree whose root carries a children list and whose
nodes all carry a "type" entry, `filter_type` yields, in depth-first order,
exactly the descendants whose "type" equals `filter_value` that are
reachable without passing through another node of that type — as stated by
`filterTypeSpec`: a matching child is yielded with its subtree unsearched,
and a non-matching child without children contributes nothing. -/
theorem filter_type_matches_spec (root : NavNode) (cs : List NavNode)
    (v : String) (hc : root.children = some cs) (ht : allTyped cs = true) :
    filter_type root v = Except.ok (filterTypeSpec v cs) := by
  unfold filter_type
  rw [hc]
  exact Facts.filter_type_go_eq_spec v cs ht

/-- C10 witness: on the concrete tree `navRoot`, filtering for type EVENT
yields the matching child `navA` (not its EVENT descendant `navC`) and the
EVENT node `navD` found below the non-matching child `navB`. -/
theorem filter_type_matches_spec_witness :
    navRoot.children = some [navA, navB] ∧ allTyped [navA, navB] = true ∧
    filter_type navRoot "EVENT" = Except.ok (filterTypeSpec "EVENT" [navA, navB]) :=
  ⟨rfl, by simp +decide [allTyped, navA, navB, navC, navD],
   filter_type_matches_spec navRoot [navA, navB] "EVENT" rfl
     (by simp +decide [allTyped, navA, navB, navC, navD])⟩

end BetfairParsing
